import Mathlib

/-
  Verification of the libcdc device-discovery and session-lifecycle core
  (src/cdc.c, src/cdc.h) against its natural-language specification.

  Shallow embedding conventions:
  * Every transport (libusb) call is modelled by the integer result code the
    C code inspects, plus the data the call writes through output pointers.
    A result code is negative exactly when the C code's `cdc_check` fires.
  * `struct cdc_ctx` becomes `CdcCtx`; the `usb_dev` handle is modelled by a
    `Bool` (present / absent, i.e. non-NULL / NULL).  The set of interfaces
    currently claimed on the handle is tracked in `claimed`; `libusb_close`
    releases all claims held by the closed handle, so `cdc_usb_close_internal`
    clears it.
  * The `cdc_return` macro (cdc.c lines 29-39) becomes the function
    `cdc_return`: it overwrites `error_str` only when a label is supplied,
    always overwrites `error_code`, and returns the stored code.
  * Functions that in C read or write byte buffers are modelled with the
    byte counts and byte lists the claims are about.
-/

set_option autoImplicit false

set_option linter.unnecessarySeqFocus false

namespace Cdc

/-- Error codes from cdc.h (`enum cdc_error`, identical to libusb codes). -/
def CDC_SUCCESS : Int := 0

def CDC_ERROR_IO : Int := -1

def CDC_ERROR_INVALID_PARAM : Int := -2

def CDC_ERROR_ACCESS : Int := -3

def CDC_ERROR_NO_DEVICE : Int := -4

def CDC_ERROR_NOT_FOUND : Int := -5

def CDC_ERROR_TIMEOUT : Int := -7

def CDC_ERROR_NO_MEM : Int := -11

/-- libusb timeout code, compared against by `cdc_read_data`/`cdc_write_data`. -/
def LIBUSB_ERROR_TIMEOUT : Int := -7

def LIBUSB_SUCCESS : Int := 0

/-- Linux errno value for a permission-denied failure, consulted in
`cdc_usb_open_dev` after the kernel-driver detach attempt. -/
def EPERM : Int := 1

/-- One alternate setting of a USB interface (`struct libusb_interface_descriptor`):
its class code and the `bEndpointAddress` of each declared endpoint
(`bNumEndpoints` is the length of `endpoints`). -/
structure InterfaceDescriptor where
  bInterfaceClass : Nat
  endpoints : List Nat
deriving DecidableEq

/-- A USB interface (`struct libusb_interface`): its alternate settings. -/
structure Interface where
  altsetting : List InterfaceDescriptor
deriving DecidableEq

/-- A USB configuration descriptor (`struct libusb_config_descriptor`):
its interfaces (`bNumInterfaces` is the length). -/
structure ConfigDescriptor where
  interfaces : List Interface
deriving DecidableEq

/-- The fields of `struct libusb_device_descriptor` the core reads. -/
structure DeviceDescriptor where
  idVendor : Nat
  idProduct : Nat
deriving DecidableEq

/-- A USB device as seen through the transport: the result code of each
descriptor-fetch / open / string-read call the core can make on it, together
with the data delivered when that call succeeds.  `configs` holds, for each
configuration index `c < bNumConfigurations`, the result of
`libusb_get_config_descriptor(dev, c, ...)` and the descriptor it yields. -/
structure UsbDevice where
  descResult : Int
  desc : DeviceDescriptor
  configs : List (Int × ConfigDescriptor)
  openResult : Int
  productStringResult : Int
  productString : String
  serialStringResult : Int
  serialString : String
deriving DecidableEq

/-- The EndpointMap produced by the Descriptor Walker: the five output
pointers of `cdc_usb_endpoints_internal`. -/
structure EndpointMap where
  in_ep : Nat
  out_ep : Nat
  ctrl_iface : Nat
  data_iface : Nat
  cfg_idx : Nat
deriving DecidableEq

/-- The match test of cdc.c line 78:
`setting->bInterfaceClass == 10 && setting->bNumEndpoints`. -/
def matchSetting (s : InterfaceDescriptor) : Bool :=
  s.bInterfaceClass == 10 && s.endpoints.length != 0

/-- Endpoint assignment of cdc.c lines 89-105, returning `(in_ep, out_ep)`:
both are initialised to the first endpoint's address; if a second endpoint
exists and its address has bit 0x80 set it becomes `out_ep`, otherwise it
becomes `in_ep`.  The `[]` case is unreachable: the match test requires
`bNumEndpoints != 0`. -/
def assignEndpoints : List Nat → Nat × Nat
  | [] => (0, 0)
  | [e0] => (e0, e0)
  | e0 :: e1 :: _ => if e1 &&& 0x80 != 0 then (e0, e1) else (e1, e0)

/-- The innermost loop of `cdc_usb_endpoints_internal` (cdc.c lines 76-109):
the first alternate setting passing the match test. -/
def scanAlts : List InterfaceDescriptor → Option InterfaceDescriptor
  | [] => none
  | s :: rest => if matchSetting s then some s else scanAlts rest

/-- The middle loop of `cdc_usb_endpoints_internal` (cdc.c lines 74-110):
the first interface (with its index, counted from `i`) one of whose
alternate settings passes the match test. -/
def scanInterfacesAux : List Interface → Nat → Option (Nat × InterfaceDescriptor)
  | [], _ => none
  | iface :: rest, i =>
    match scanAlts iface.altsetting with
    | some s => some (i, s)
    | none => scanInterfacesAux rest (i + 1)

/-- The outer loop of `cdc_usb_endpoints_internal` (cdc.c lines 71-112),
configuration index counted from `c`.  A failing configuration-descriptor
fetch propagates its code; exhausting the configurations yields
`CDC_ERROR_NOT_FOUND` with label "cdc endpoints" (cdc.c line 113).
On a match the function returns the filled output pointers together with
the matched alternate setting (which the C code holds in `setting` when it
assigns the endpoints). -/
def scanConfigsAux :
    List (Int × ConfigDescriptor) → Nat →
    Except (Int × String) (EndpointMap × InterfaceDescriptor)
  | [], _ => .error (CDC_ERROR_NOT_FOUND, "cdc endpoints")
  | (r, cfg) :: rest, c =>
    if r < 0 then .error (r, "libusb_get_config_descriptor")
    else
      match scanInterfacesAux cfg.interfaces 0 with
      | some (i, s) =>
        .ok (⟨(assignEndpoints s.endpoints).1, (assignEndpoints s.endpoints).2,
              i ^^^ 1, i, c⟩, s)
      | none => scanConfigsAux rest (c + 1)

/-- `cdc_usb_endpoints_internal` (cdc.c lines 64-114), as a pure function of
the probed device.  An error carries the returned code together with the
context label that the `cdc_check`/`cdc_return` at the failing site writes
into the session. -/
def cdc_usb_endpoints_internal (dev : Option UsbDevice) :
    Except (Int × String) (EndpointMap × InterfaceDescriptor) :=
  match dev with
  | none => .error (CDC_ERROR_INVALID_PARAM, "libusb_device *dev")
  | some d =>
    if d.descResult < 0 then .error (d.descResult, "libusb_get_device_descriptor")
    else scanConfigsAux d.configs 0

/-- Does an interface contain a matching alternate setting. -/
def ifaceMatch (iface : Interface) : Bool :=
  (scanAlts iface.altsetting).isSome

/-- Does a configuration contain an interface with a matching setting. -/
def configHasMatch (cfg : ConfigDescriptor) : Bool :=
  cfg.interfaces.any ifaceMatch

theorem scanAlts_eq_some (l : List InterfaceDescriptor) (s : InterfaceDescriptor)
    (h : scanAlts l = some s) :
    matchSetting s = true ∧
    ∃ pre post, l = pre ++ s :: post ∧ ∀ t ∈ pre, matchSetting t = false := by
  induction l with
  | nil => simp [scanAlts] at h
  | cons a l ih =>
    by_cases ha : matchSetting a = true
    · rw [scanAlts, if_pos ha] at h
      injection h with h
      subst h
      exact ⟨ha, [], l, rfl, by simp⟩
    · rw [scanAlts, if_neg ha] at h
      obtain ⟨hm, pre, post, hl, hpre⟩ := ih h
      refine ⟨hm, a :: pre, post, by simp [hl], ?_⟩
      intro t ht
      rcases List.mem_cons.mp ht with rfl | ht
      · exact Bool.not_eq_true _ ▸ ha
      · exact hpre t ht

theorem scanAlts_eq_none (l : List InterfaceDescriptor) :
    scanAlts l = none ↔ ∀ t ∈ l, matchSetting t = false := by
  induction l with
  | nil => simp [scanAlts]
  | cons a l ih =>
    by_cases ha : matchSetting a = true
    · simp [scanAlts, ha]
    · simp [scanAlts, ha, ih, Bool.not_eq_true]

theorem scanInterfacesAux_eq_some (l : List Interface) (i0 i : Nat)
    (s : InterfaceDescriptor) (h : scanInterfacesAux l i0 = some (i, s)) :
    ∃ pre iface post, l = pre ++ iface :: post ∧ i = i0 + pre.length ∧
      (∀ t ∈ pre, ifaceMatch t = false) ∧ scanAlts iface.altsetting = some s := by
  induction l generalizing i0 with
  | nil => simp [scanInterfacesAux] at h
  | cons a l ih =>
    rw [scanInterfacesAux] at h
    cases hs : scanAlts a.altsetting with
    | some s0 =>
      rw [hs] at h
      injection h with h
      injection h with h1 h2
      subst h1; subst h2
      exact ⟨[], a, l, rfl, by simp, by simp, hs⟩
    | none =>
      rw [hs] at h
      obtain ⟨pre, iface, post, hl, hi, hpre, hsc⟩ := ih (i0 + 1) h
      refine ⟨a :: pre, iface, post, by simp [hl], by simp [hi]; omega, ?_, hsc⟩
      intro t ht
      rcases List.mem_cons.mp ht with rfl | ht
      · simp [ifaceMatch, hs]
      · exact hpre t ht

theorem scanInterfacesAux_eq_none (l : List Interface) (i0 : Nat) :
    scanInterfacesAux l i0 = none ↔ ∀ t ∈ l, ifaceMatch t = false := by
  induction l generalizing i0 with
  | nil => simp [scanInterfacesAux]
  | cons a l ih =>
    rw [scanInterfacesAux]
    cases hs : scanAlts a.altsetting with
    | some s0 => simp [ifaceMatch, hs]
    | none =>
      simp only [ih (i0 + 1)]
      constructor
      · intro hall t ht
        rcases List.mem_cons.mp ht with rfl | ht
        · simp [ifaceMatch, hs]
        · exact hall t ht
      · intro hall t ht
        exact hall t (List.mem_cons_of_mem a ht)

theorem scanConfigsAux_eq_ok (l : List (Int × ConfigDescriptor)) (c0 : Nat)
    (m : EndpointMap) (s : InterfaceDescriptor)
    (h : scanConfigsAux l c0 = .ok (m, s)) :
    ∃ pre p post, l = pre ++ p :: post ∧ m.cfg_idx = c0 + pre.length ∧
      (∀ q ∈ pre, 0 ≤ q.1 ∧ configHasMatch q.2 = false) ∧ 0 ≤ p.1 ∧
      ∃ i, scanInterfacesAux p.2.interfaces 0 = some (i, s) ∧
        m.data_iface = i ∧ m.ctrl_iface = i ^^^ 1 ∧
        m.in_ep = (assignEndpoints s.endpoints).1 ∧
        m.out_ep = (assignEndpoints s.endpoints).2 := by
  induction l generalizing c0 with
  | nil => simp [scanConfigsAux] at h
  | cons a l ih =>
    obtain ⟨r, cfg⟩ := a
    rw [scanConfigsAux] at h
    by_cases hr : r < 0
    · rw [if_pos hr] at h
      exact absurd h (by simp)
    · rw [if_neg hr] at h
      cases hsi : scanInterfacesAux cfg.interfaces 0 with
      | some pr =>
        obtain ⟨i, s0⟩ := pr
        rw [hsi] at h
        injection h with h
        injection h with h1 h2
        subst h2
        refine ⟨[], (r, cfg), l, rfl, ?_, by simp, by omega, i, hsi, ?_, ?_, ?_, ?_⟩ <;>
          simp [← h1]
      | none =>
        rw [hsi] at h
        obtain ⟨pre, p, post, hl, hc, hpre, hp, rest⟩ := ih (c0 + 1) h
        refine ⟨(r, cfg) :: pre, p, post, by simp [hl], by simp [hc]; omega, ?_, hp, rest⟩
        intro q hq
        rcases List.mem_cons.mp hq with rfl | hq
        · refine ⟨by omega, ?_⟩
          simp only [configHasMatch]
          rw [List.any_eq_false]
          intro t ht
          simp [(scanInterfacesAux_eq_none cfg.interfaces 0).mp hsi t ht]
        · exact hpre q hq

theorem scanConfigsAux_eq_notfound (l : List (Int × ConfigDescriptor)) (c0 : Nat)
    (hwf : ∀ q ∈ l, 0 ≤ q.1) :
    scanConfigsAux l c0 = .error (CDC_ERROR_NOT_FOUND, "cdc endpoints") ↔
      ∀ q ∈ l, configHasMatch q.2 = false := by
  induction l generalizing c0 with
  | nil => simp [scanConfigsAux]
  | cons a l ih =>
    obtain ⟨r, cfg⟩ := a
    have hr : ¬ r < 0 := by
      have := hwf (r, cfg) (by simp)
      omega
    rw [scanConfigsAux, if_neg hr]
    cases hsi : scanInterfacesAux cfg.interfaces 0 with
    | some pr =>
      obtain ⟨i, s0⟩ := pr
      constructor
      · intro h
        exact absurd h (by simp)
      · intro hall
        obtain ⟨pre, iface, post, hl, _, _, hsc⟩ :=
          scanInterfacesAux_eq_some cfg.interfaces 0 i s0 hsi
        have hmem : iface ∈ cfg.interfaces := by
          rw [hl]; exact List.mem_append_right _ (by simp)
        have : configHasMatch cfg = true := by
          simp only [configHasMatch, List.any_eq_true]
          exact ⟨iface, hmem, by simp [ifaceMatch, hsc]⟩
        have := hall (r, cfg) (by simp)
        simp_all
    | none =>
      have hwl : ∀ q ∈ l, 0 ≤ q.1 := fun q hq => hwf q (List.mem_cons_of_mem _ hq)
      rw [ih (c0 + 1) hwl]
      constructor
      · intro hall q hq
        rcases List.mem_cons.mp hq with rfl | hq
        · simp only [configHasMatch]
          rw [List.any_eq_false]
          intro t ht
          simp [(scanInterfacesAux_eq_none cfg.interfaces 0).mp hsi t ht]
        · exact hall q hq
      · intro hall q hq
        exact hall q (List.mem_cons_of_mem _ hq)

theorem scanConfigsAux_error_neg (l : List (Int × ConfigDescriptor)) (c0 : Nat)
    (e : Int) (lbl : String) (h : scanConfigsAux l c0 = .error (e, lbl)) : e < 0 := by
  induction l generalizing c0 with
  | nil =>
    simp only [scanConfigsAux] at h
    injection h with h
    injection h with h1 h2
    simp [← h1, CDC_ERROR_NOT_FOUND]
  | cons a l ih =>
    obtain ⟨r, cfg⟩ := a
    rw [scanConfigsAux] at h
    by_cases hr : r < 0
    · rw [if_pos hr] at h
      injection h with h
      injection h with h1 h2
      omega
    · rw [if_neg hr] at h
      cases hsi : scanInterfacesAux cfg.interfaces 0 with
      | some pr =>
        rw [hsi] at h
        exact absurd h (by simp)
      | none =>
        rw [hsi] at h
        exact ih (c0 + 1) h

theorem endpoints_internal_error_neg (dev : Option UsbDevice) (e : Int) (lbl : String)
    (h : cdc_usb_endpoints_internal dev = .error (e, lbl)) : e < 0 := by
  cases dev with
  | none =>
    simp only [cdc_usb_endpoints_internal] at h
    injection h with h
    injection h with h1 h2
    simp [← h1, CDC_ERROR_INVALID_PARAM]
  | some d =>
    simp only [cdc_usb_endpoints_internal] at h
    by_cases hd : d.descResult < 0
    · rw [if_pos hd] at h
      injection h with h
      injection h with h1 h2
      omega
    · rw [if_neg hd] at h
      exact scanConfigsAux_error_neg d.configs 0 e lbl h

theorem scanConfigsAux_total (l : List (Int × ConfigDescriptor)) (c0 : Nat)
    (hwf : ∀ q ∈ l, 0 ≤ q.1) :
    (∃ ms, scanConfigsAux l c0 = .ok ms) ∨
      scanConfigsAux l c0 = .error (CDC_ERROR_NOT_FOUND, "cdc endpoints") := by
  induction l generalizing c0 with
  | nil => right; simp [scanConfigsAux]
  | cons a l ih =>
    obtain ⟨r, cfg⟩ := a
    have hr : ¬ r < 0 := by
      have := hwf (r, cfg) (by simp)
      omega
    rw [scanConfigsAux, if_neg hr]
    cases hsi : scanInterfacesAux cfg.interfaces 0 with
    | some pr =>
      obtain ⟨i, s0⟩ := pr
      left
      exact ⟨_, rfl⟩
    | none =>
      exact ih (c0 + 1) fun q hq => hwf q (List.mem_cons_of_mem _ hq)

/-- C4: the Descriptor Walker scans configurations, interfaces, and alternate
settings in ascending index order and succeeds on the first alternate setting
whose interface class is 10 with at least one endpoint (`matchSetting`),
returning that interface's index as `data_iface`, its XOR 1 as `ctrl_iface`,
and the containing configuration's index; everything before the match point
contains no matching setting (first-match wins, search stops), and when no
configuration fetch fails, it fails with `CDC_ERROR_NOT_FOUND` exactly when no
alternate setting in any configuration matches. -/
theorem c4_walker_first_match (d : UsbDevice) (hd : 0 ≤ d.descResult) :
    (∀ m s, cdc_usb_endpoints_internal (some d) = .ok (m, s) →
      m.ctrl_iface = m.data_iface ^^^ 1 ∧ matchSetting s = true ∧
      ∃ pre p post, d.configs = pre ++ p :: post ∧
        m.cfg_idx = pre.length ∧
        (∀ q ∈ pre, configHasMatch q.2 = false) ∧
        ∃ ipre iface ipost, p.2.interfaces = ipre ++ iface :: ipost ∧
          m.data_iface = ipre.length ∧
          (∀ t ∈ ipre, ifaceMatch t = false) ∧
          ∃ apre apost, iface.altsetting = apre ++ s :: apost ∧
            ∀ t ∈ apre, matchSetting t = false) ∧
    ((∀ q ∈ d.configs, 0 ≤ q.1) →
      (cdc_usb_endpoints_internal (some d) =
          .error (CDC_ERROR_NOT_FOUND, "cdc endpoints") ↔
        ∀ q ∈ d.configs, configHasMatch q.2 = false)) := by
  have hd' : ¬ d.descResult < 0 := by omega
  constructor
  · intro m s h
    rw [cdc_usb_endpoints_internal, if_neg hd'] at h
    obtain ⟨pre, p, post, hl, hc, hpre, hp, i, hsi, hdi, hci, hin, hout⟩ :=
      scanConfigsAux_eq_ok d.configs 0 m s h
    obtain ⟨ipre, iface, ipost, hil, hi, hipre, hsc⟩ :=
      scanInterfacesAux_eq_some p.2.interfaces 0 i s hsi
    obtain ⟨hm, apre, apost, hal, hapre⟩ := scanAlts_eq_some iface.altsetting s hsc
    refine ⟨by rw [hdi, hci], hm, pre, p, post, hl, by omega,
      fun q hq => (hpre q hq).2, ipre, iface, ipost, hil, by omega, hipre,
      apre, apost, hal, hapre⟩
  · intro hwf
    rw [cdc_usb_endpoints_internal, if_neg hd']
    exact scanConfigsAux_eq_notfound d.configs 0 hwf

/-- A demonstration device with one configuration holding a single HID-class
(class 3) interface: no CDC Data interface anywhere. -/
def demoNonCdcDevice : UsbDevice :=
  ⟨0, ⟨4660, 22136⟩, [(0, ⟨[⟨[⟨3, [1]⟩]⟩]⟩)], 0, 0, "", 0, ""⟩

/-- Witness for C4 at a concrete device: the walker fails with
`CDC_ERROR_NOT_FOUND` on a device without a CDC Data interface. -/
theorem c4_walker_first_match_witness :
    cdc_usb_endpoints_internal (some demoNonCdcDevice) =
      .error (CDC_ERROR_NOT_FOUND, "cdc endpoints") :=
  ((c4_walker_first_match demoNonCdcDevice (by decide)).2 (by decide)).mpr (by decide)

/-- A CDC device whose matching setting declares the host-to-device endpoint
0x02 first and the device-to-host endpoint 0x81 (bit 0x80 set) second. -/
def demoCdcDeviceInFirst : UsbDevice :=
  ⟨0, ⟨4660, 22136⟩, [(0, ⟨[⟨[⟨10, [2, 129]⟩]⟩]⟩)], 0, 0, "", 0, ""⟩

/-- C2 counterexample: on a matching setting declaring endpoints 0x02 and 0x81,
the walker assigns the device-to-host endpoint 0x81 (direction bit 0x80 set) to
`out_ep`, and `in_ep` receives 0x02 — not 0x81 as the claim states. -/
theorem c2_direction_counterexample :
    cdc_usb_endpoints_internal (some demoCdcDeviceInFirst) =
      .ok (⟨2, 129, 1, 0, 0⟩, ⟨10, [2, 129]⟩) ∧
    (129 : Nat) &&& 0x80 ≠ 0 ∧ (2 : Nat) &&& 0x80 = 0 ∧ (2 : Nat) ≠ 129 := by
  exact ⟨rfl, by decide, by decide, by decide⟩

/-- C2 (amended): when the Walker finds a matching alternate setting, a single
declared endpoint is assigned to both `in_ep` and `out_ep`; with two declared
endpoints of opposite directions, the endpoint whose address has the
device-to-host bit 0x80 set becomes `out_ep` (the endpoint `cdc_read_data`
uses) and the other becomes `in_ep` (used by `cdc_write_data`), regardless of
declaration order. -/
theorem c2_endpoint_assignment (d : UsbDevice) (m : EndpointMap)
    (s : InterfaceDescriptor)
    (h : cdc_usb_endpoints_internal (some d) = .ok (m, s)) :
    (∀ e, s.endpoints = [e] → m.in_ep = e ∧ m.out_ep = e) ∧
    (∀ a b, s.endpoints = [a, b] → a &&& 0x80 = 0 → b &&& 0x80 ≠ 0 →
      m.out_ep = b ∧ m.in_ep = a) ∧
    (∀ a b, s.endpoints = [a, b] → a &&& 0x80 ≠ 0 → b &&& 0x80 = 0 →
      m.out_ep = a ∧ m.in_ep = b) := by
  have hassign : m.in_ep = (assignEndpoints s.endpoints).1 ∧
      m.out_ep = (assignEndpoints s.endpoints).2 := by
    rw [cdc_usb_endpoints_internal] at h
    by_cases hd : d.descResult < 0
    · rw [if_pos hd] at h
      exact absurd h (by simp)
    · rw [if_neg hd] at h
      obtain ⟨_, _, _, _, _, _, _, _, _, _, _, hin, hout⟩ :=
        scanConfigsAux_eq_ok d.configs 0 m s h
      exact ⟨hin, hout⟩
  obtain ⟨hin, hout⟩ := hassign
  refine ⟨?_, ?_, ?_⟩
  · intro e he
    rw [hin, hout, he]
    simp [assignEndpoints]
  · intro a b hab ha hb
    rw [hin, hout, hab]
    simp [assignEndpoints, hb]
  · intro a b hab ha hb
    rw [hin, hout, hab]
    simp [assignEndpoints, hb]

/-- A CDC device declaring the same two endpoints in the opposite order:
device-to-host endpoint 0x82 first, host-to-device endpoint 0x01 second. -/
def demoCdcDeviceOutFirst : UsbDevice :=
  ⟨0, ⟨4660, 22136⟩, [(0, ⟨[⟨[⟨10, [130, 1]⟩]⟩]⟩)], 0, 0, "", 0, ""⟩

/-- Witness for C2 (amended): with the device-to-host endpoint 0x82 declared
first, it still ends up in `out_ep` and 0x01 in `in_ep`. -/
theorem c2_endpoint_assignment_witness :
    (EndpointMap.mk 1 130 1 0 0).out_ep = 130 ∧
    (EndpointMap.mk 1 130 1 0 0).in_ep = 1 :=
  (c2_endpoint_assignment demoCdcDeviceOutFirst ⟨1, 130, 1, 0, 0⟩ ⟨10, [130, 1]⟩
      rfl).2.2 130 1 rfl (by decide) (by decide)

/-- `enum cdc_module_detach_mode` from cdc.h. -/
inductive DetachMode where
  | AUTO_DETACH_CDC_MODULE
  | DONT_DETACH_CDC_MODULE
  | AUTO_DETACH_REATTACH_CDC_MODULE
deriving DecidableEq

/-- `struct cdc_ctx` (cdc.h lines 43-64).  `usb_dev` is true when the device
handle is present (non-NULL); `claimed` tracks the interfaces currently
claimed on that handle (transport-side state libusb ties to the handle). -/
structure CdcCtx where
  usb_dev : Bool
  claimed : List Nat
  usb_read_timeout : Int
  usb_write_timeout : Int
  out_ep : Nat
  in_ep : Nat
  error_str : String
  error_code : Int
  module_detach_mode : DetachMode
deriving DecidableEq

/-- The `cdc_return` macro (cdc.c lines 29-39) for a non-null session:
overwrite the context label only when one is supplied, always overwrite the
error code, and return the stored code. -/
def cdc_return (ctx : CdcCtx) (code : Int) (str : Option String) : Int × CdcCtx :=
  let c1 := match str with
    | some s => {ctx with error_str := s}
    | none => ctx
  let c2 := {c1 with error_code := code}
  (c2.error_code, c2)

/-- `cdc_usb_close_internal` (cdc.c lines 125-132): close the handle if
present and clear it; closing a libusb handle releases the interfaces
claimed on it. -/
def cdc_usb_close_internal (ctx : CdcCtx) : CdcCtx :=
  if ctx.usb_dev then {ctx with usb_dev := false, claimed := []} else ctx

/-- The session state right after a successful `cdc_init` (cdc.c lines
143-155): no handle, default 5000 ms timeouts, label "cdc_init",
auto-detach mode.  (`cdc_init` does not write `error_code`; it is taken as 0
here for concrete demonstrations.) -/
def cdc_init_ctx : CdcCtx :=
  ⟨false, [], 5000, 5000, 0, 0, "cdc_init", CDC_SUCCESS, .AUTO_DETACH_CDC_MODULE⟩

/-- The 7-byte line-coding payload built by `cdc_set_line_coding` (cdc.c
lines 647-655).  Each entry is a C `uint8_t`, hence the mod 256; for a
non-negative value, masking with 0xff is mod 256 and shifting right by k
bits is division by 2 to the k. -/
def lineCodingBytes (baudrate bits sbit parity : Nat) : List Nat :=
  [baudrate % 256, baudrate / 256 % 256, baudrate / 65536 % 256,
   baudrate / 16777216 % 256, sbit % 256, parity % 256, bits % 256]

/-- One `libusb_control_transfer` call as issued by the core: the handle
passed (present or absent), the setup fields, the data-stage payload and the
timeout. -/
structure ControlCall where
  handle : Bool
  bmRequestType : Nat
  bRequest : Nat
  wValue : Nat
  wIndex : Nat
  data : List Nat
  timeout : Int
deriving DecidableEq

/-- Result of a control-path operation: return code, final session state, and
the control transfers issued. -/
structure ControlOut where
  ret : Int
  ctx : CdcCtx
  calls : List ControlCall
deriving DecidableEq

/-- `cdc_set_line_coding` (cdc.c lines 640-662) for a non-null session.
`transferResult` is what `libusb_control_transfer` returns if the call is
reached. -/
def cdc_set_line_coding (ctx : CdcCtx) (baudrate bits sbit parity : Nat)
    (transferResult : Int) : ControlOut :=
  if ctx.usb_dev = false then
    let rc := cdc_return ctx CDC_ERROR_NO_DEVICE (some "not opened")
    ⟨rc.1, rc.2, []⟩
  else
    let call : ControlCall :=
      ⟨ctx.usb_dev, 0x21, 0x20, 0, 0, lineCodingBytes baudrate bits sbit parity, 0⟩
    if transferResult < 0 then
      let rc := cdc_return ctx transferResult (some "libusb_control_transfer")
      ⟨rc.1, rc.2, [call]⟩
    else ⟨CDC_SUCCESS, ctx, [call]⟩

/-- `cdc_setdtr_rts` (cdc.c lines 722-742) for a non-null session: bit 0 of
the value is DTR, bit 1 is RTS, no data stage. -/
def cdc_setdtr_rts (ctx : CdcCtx) (dtr rts : Int) (transferResult : Int) :
    ControlOut :=
  if ctx.usb_dev = false then
    let rc := cdc_return ctx CDC_ERROR_NO_DEVICE (some "not opened")
    ⟨rc.1, rc.2, []⟩
  else
    let usb_val : Nat := (if dtr ≠ 0 then 1 else 0) + (if rts ≠ 0 then 2 else 0)
    let call : ControlCall := ⟨ctx.usb_dev, 0x21, 0x22, usb_val, 0, [], 0⟩
    if transferResult < 0 then
      let rc := cdc_return ctx transferResult (some "libusb_control_transfer")
      ⟨rc.1, rc.2, [call]⟩
    else ⟨CDC_SUCCESS, ctx, [call]⟩

/-- Outcome of one `libusb_bulk_transfer` call: its result code and the byte
count it wrote through `actual_size` (libusb guarantees it is at most the
requested length; stated as a hypothesis where needed). -/
structure BulkEnv where
  result : Int
  actual_size : Nat
deriving DecidableEq

/-- One `libusb_bulk_transfer` call as issued by the core. -/
structure BulkCall where
  handle : Bool
  endpoint : Nat
  size : Nat
  timeout : Int
deriving DecidableEq

/-- Result of a bulk-path operation. -/
structure BulkOut where
  ret : Int
  ctx : CdcCtx
  calls : List BulkCall
deriving DecidableEq

/-- `cdc_write_data` (cdc.c lines 674-687): bulk transfer on `in_ep` with the
write timeout; a timeout with a non-zero transferred count is rewritten to
success; a negative result is returned through `cdc_check`; otherwise the
transferred count is returned.  There is no null or open-state check: the
handle field is passed to the transfer as-is. -/
def cdc_write_data (ctx : CdcCtx) (size : Nat) (env : BulkEnv) : BulkOut :=
  let call : BulkCall := ⟨ctx.usb_dev, ctx.in_ep, size, ctx.usb_write_timeout⟩
  let result :=
    if env.result = LIBUSB_ERROR_TIMEOUT ∧ env.actual_size ≠ 0 then LIBUSB_SUCCESS
    else env.result
  if result < 0 then
    let rc := cdc_return ctx result (some "libusb_bulk_transfer")
    ⟨rc.1, rc.2, [call]⟩
  else ⟨(env.actual_size : Int), ctx, [call]⟩

/-- `cdc_read_data` (cdc.c lines 699-711): same shape as `cdc_write_data` but
on `out_ep` with the read timeout. -/
def cdc_read_data (ctx : CdcCtx) (size : Nat) (env : BulkEnv) : BulkOut :=
  let call : BulkCall := ⟨ctx.usb_dev, ctx.out_ep, size, ctx.usb_read_timeout⟩
  let result :=
    if env.result = LIBUSB_ERROR_TIMEOUT ∧ env.actual_size ≠ 0 then LIBUSB_SUCCESS
    else env.result
  if result < 0 then
    let rc := cdc_return ctx result (some "libusb_bulk_transfer")
    ⟨rc.1, rc.2, [call]⟩
  else ⟨(env.actual_size : Int), ctx, [call]⟩

/-- Transport responses consumed by one `cdc_usb_open_dev` run: the results
of `libusb_open`, the `errno` left by the detach attempts, and the results of
`libusb_set_configuration`, `libusb_claim_interface` and the line-coding
control transfer. -/
structure OpenEnv where
  open_result : Int
  detach_errno : Int
  set_config_result : Int
  claim_result : Int
  control_result : Int
deriving DecidableEq

/-- Result of `cdc_usb_open_dev`. -/
structure OpenOut where
  ret : Int
  ctx : CdcCtx
deriving DecidableEq

/-- `cdc_usb_open_dev` (cdc.c lines 403-450) for a non-null session: walker,
open, best-effort detach (recording errno), set-configuration (whose failure
is turned into `CDC_ERROR_ACCESS` when the detach attempt hit EPERM, and
does not close the handle), interface claim and initial 9600-8N1 line coding
(whose failures close the handle), in that order. -/
def cdc_usb_open_dev (ctx : CdcCtx) (dev : Option UsbDevice) (env : OpenEnv) :
    OpenOut :=
  match cdc_usb_endpoints_internal dev with
  | .error (e, lbl) =>
    let rc := cdc_return ctx e (some lbl)
    ⟨rc.1, rc.2⟩
  | .ok (m, _) =>
    let ctx1 := {ctx with out_ep := m.out_ep, in_ep := m.in_ep}
    if env.open_result < 0 then
      let rc := cdc_return ctx1 env.open_result (some "libusb_open")
      ⟨rc.1, rc.2⟩
    else
      let ctx2 := {ctx1 with usb_dev := true}
      let detach_errno : Int :=
        match ctx2.module_detach_mode with
        | .DONT_DETACH_CDC_MODULE => 0
        | _ => env.detach_errno
      if env.set_config_result < 0 then
        if detach_errno = EPERM then
          let rc := cdc_return ctx2 CDC_ERROR_ACCESS
            (some "missing permissions to detach kernel module")
          ⟨rc.1, rc.2⟩
        else
          let rc := cdc_return ctx2 env.set_config_result
            (some "libusb_set_configuration")
          ⟨rc.1, rc.2⟩
      else
        if env.claim_result < 0 then
          let ctx3 := cdc_usb_close_internal ctx2
          let rc := cdc_return ctx3 env.claim_result (some "libusb_claim_interface")
          ⟨rc.1, rc.2⟩
        else
          let ctx3 := {ctx2 with claimed := ctx2.claimed ++ [m.data_iface]}
          let o := cdc_set_line_coding ctx3 9600 8 0 0 env.control_result
          if o.ret < 0 then
            let ctx4 := cdc_usb_close_internal o.ctx
            let rc := cdc_return ctx4 o.ret none
            ⟨rc.1, rc.2⟩
          else ⟨CDC_SUCCESS, o.ctx⟩

/-- Result of `cdc_usb_close`: return code, final state, and the
`libusb_release_interface` attempts made, each recorded with the handle
value (present or absent) it was given. -/
structure CloseOut where
  ret : Int
  ctx : CdcCtx
  attempts : List (Bool × Nat)
deriving DecidableEq

/-- `cdc_usb_close` (cdc.c lines 610-627) for a non-null session: attempt to
release interfaces 0 and 1 in order on whatever handle the session holds
(absent included — there is no open-state check), stop after the first
release whose result is not `CDC_SUCCESS`, close the handle unconditionally,
and propagate a negative release result.  `release` is the transport's
response per (handle, interface). -/
def cdc_usb_close (ctx : CdcCtx) (release : Bool → Nat → Int) : CloseOut :=
  let r0 := release ctx.usb_dev 0
  let step : Int × List (Bool × Nat) :=
    if r0 ≠ CDC_SUCCESS then (r0, [(ctx.usb_dev, 0)])
    else (release ctx.usb_dev 1, [(ctx.usb_dev, 0), (ctx.usb_dev, 1)])
  let ctx1 := cdc_usb_close_internal ctx
  if step.1 < 0 then
    let rc := cdc_return ctx1 step.1 (some "libusb_release_interface")
    ⟨rc.1, rc.2, step.2⟩
  else ⟨CDC_SUCCESS, ctx1, step.2⟩

/-- Result of `cdc_usb_find_all`: return code (match count when
non-negative), final session state, the final contents of the `*devlist`
chain (each entry holding one device reference taken with
`libusb_ref_device`), and whether the raw device list from
`libusb_get_device_list` was released before returning. -/
structure FindAllOut where
  ret : Int
  ctx : CdcCtx
  entries : List UsbDevice
  rawFreed : Bool
deriving DecidableEq

/-- The scan loop of `cdc_usb_find_all` (cdc.c lines 266-295).  With
vendor = product = 0 a device is probed with the walker: `NOT_FOUND` skips it
(after the walker's `cdc_return` has run), any other negative walker result
returns through `cdc_check(result, NULL, free raw list)`; otherwise the
device descriptor is fetched and compared against vendor/product.  An
included device gets a list node (`alloc` says whether the nth `malloc`
succeeds), its reference, and bumps `count`.  No error path frees the nodes
already linked into `*devlist`; every exit frees the raw list. -/
def findAllAux (vendor product : Nat) (alloc : Nat → Bool) :
    CdcCtx → List UsbDevice → Nat → Nat → List UsbDevice → FindAllOut
  | ctx, [], count, _, acc => ⟨(count : Int), ctx, acc, true⟩
  | ctx, dev :: rest, count, aIdx, acc =>
    if vendor = 0 ∧ product = 0 then
      match cdc_usb_endpoints_internal (some dev) with
      | .error (e, lbl) =>
        let ctx1 := (cdc_return ctx e (some lbl)).2
        if e = CDC_ERROR_NOT_FOUND then
          findAllAux vendor product alloc ctx1 rest count aIdx acc
        else
          let rc := cdc_return ctx1 e none
          ⟨rc.1, rc.2, acc, true⟩
      | .ok _ =>
        if alloc aIdx then
          findAllAux vendor product alloc ctx rest (count + 1) (aIdx + 1) (acc ++ [dev])
        else
          let rc := cdc_return ctx CDC_ERROR_NO_MEM (some "out of memory")
          ⟨rc.1, rc.2, acc, true⟩
    else
      if dev.descResult < 0 then
        let rc := cdc_return ctx dev.descResult (some "libusb_get_device_descriptor")
        ⟨rc.1, rc.2, acc, true⟩
      else
        if dev.desc.idVendor = vendor ∧ dev.desc.idProduct = product then
          if alloc aIdx then
            findAllAux vendor product alloc ctx rest (count + 1) (aIdx + 1) (acc ++ [dev])
          else
            let rc := cdc_return ctx CDC_ERROR_NO_MEM (some "out of memory")
            ⟨rc.1, rc.2, acc, true⟩
        else findAllAux vendor product alloc ctx rest count aIdx acc

/-- `cdc_usb_find_all` (cdc.c lines 253-296) for a non-null session.
`listResult` and `devs` are what `libusb_get_device_list` returns; a negative
`listResult` propagates before any list exists (`rawFreed` is vacuously
true: nothing was acquired). -/
def cdc_usb_find_all (ctx : CdcCtx) (listResult : Int) (devs : List UsbDevice)
    (vendor product : Nat) (alloc : Nat → Bool) : FindAllOut :=
  if listResult < 0 then
    let rc := cdc_return ctx listResult (some "libusb_get_device_list")
    ⟨rc.1, rc.2, [], true⟩
  else findAllAux vendor product alloc ctx devs 0 0 []

/-- Outcome of one description/serial filter in `cdc_usb_open_desc_index`. -/
inductive FilterRes where
  | pass
  | mismatch
  | err (code : Int) (label : String)
deriving DecidableEq

/-- The repeated filtering block of `cdc_usb_open_desc_index` (cdc.c lines
527-551): no filter always passes; a failing string fetch propagates its code
and label; a fetched string differing from the filter (strncmp over the
256-byte buffer, modelled as string equality) is a mismatch. -/
def filterCheck (filter : Option String) (fetchResult : Int) (fetched : String)
    (label : String) : FilterRes :=
  match filter with
  | none => .pass
  | some f =>
    if fetchResult < 0 then .err fetchResult label
    else if fetched = f then .pass else .mismatch

/-- Result of `cdc_usb_open_desc_index`: return code, final session state,
and the devices handed to the full `cdc_usb_open_dev` state machine. -/
structure OpenDescOut where
  ret : Int
  ctx : CdcCtx
  fullOpens : List UsbDevice
deriving DecidableEq

/-- The scan loop of `cdc_usb_open_desc_index` (cdc.c lines 509-567).  For a
VID/PID match the device is opened transiently, the filters run (a mismatch
closes the transient handle and skips the device without counting it), the
transient handle is closed, the index counts down across surviving matches,
and the selected device goes through `cdc_usb_open_dev`.  Exhausting the
list yields `CDC_ERROR_NOT_FOUND` with label "device not found". -/
def openDescIndexAux (vendor product : Nat) (description serial : Option String)
    (oenv : OpenEnv) :
    CdcCtx → List UsbDevice → Nat → OpenDescOut
  | ctx, [], _ =>
    let rc := cdc_return ctx CDC_ERROR_NOT_FOUND (some "device not found")
    ⟨rc.1, rc.2, []⟩
  | ctx, dev :: rest, index =>
    if dev.descResult < 0 then
      let rc := cdc_return ctx dev.descResult (some "libusb_get_device_descriptor")
      ⟨rc.1, rc.2, []⟩
    else
      if dev.desc.idVendor = vendor ∧ dev.desc.idProduct = product then
        if dev.openResult < 0 then
          let rc := cdc_return ctx dev.openResult (some "usb_open")
          ⟨rc.1, rc.2, []⟩
        else
          let ctx1 := {ctx with usb_dev := true}
          match filterCheck description dev.productStringResult dev.productString
              "libusb_get_string_descriptor_ascii product description" with
          | .err e lbl =>
            let rc := cdc_return ctx1 e (some lbl)
            ⟨rc.1, rc.2, []⟩
          | .mismatch =>
            openDescIndexAux vendor product description serial oenv
              (cdc_usb_close_internal ctx1) rest index
          | .pass =>
            match filterCheck serial dev.serialStringResult dev.serialString
                "libusb_get_string_descriptor_ascii serial number" with
            | .err e lbl =>
              let rc := cdc_return ctx1 e (some lbl)
              ⟨rc.1, rc.2, []⟩
            | .mismatch =>
              openDescIndexAux vendor product description serial oenv
                (cdc_usb_close_internal ctx1) rest index
            | .pass =>
              let ctx2 := cdc_usb_close_internal ctx1
              if 0 < index then
                openDescIndexAux vendor product description serial oenv ctx2 rest
                  (index - 1)
              else
                let o := cdc_usb_open_dev ctx2 (some dev) oenv
                ⟨o.ret, o.ctx, [dev]⟩
      else openDescIndexAux vendor product description serial oenv ctx rest index

/-- `cdc_usb_open_desc_index` (cdc.c lines 497-568) for a non-null session. -/
def cdc_usb_open_desc_index (ctx : CdcCtx) (listResult : Int)
    (devs : List UsbDevice) (vendor product : Nat)
    (description serial : Option String) (oenv : OpenEnv) (index : Nat) :
    OpenDescOut :=
  if listResult < 0 then
    let rc := cdc_return ctx listResult (some "libusb_get_device_list")
    ⟨rc.1, rc.2, []⟩
  else openDescIndexAux vendor product description serial oenv ctx devs index

/-- Does a device string satisfy an optional filter string (an absent filter
always passes). -/
def filterBool (f : Option String) (s : String) : Bool :=
  match f with
  | none => true
  | some x => s == x

/-- A device survives the Enumerator's filtering: its descriptor is
readable, its VID/PID match, and each given filter string equals the
corresponding device string. -/
def surviving (vendor product : Nat) (description serial : Option String)
    (d : UsbDevice) : Bool :=
  decide (0 ≤ d.descResult) && d.desc.idVendor == vendor &&
    d.desc.idProduct == product &&
    filterBool description d.productString &&
    filterBool serial d.serialString

/-- Transport well-behavedness for one device during an
`cdc_usb_open_desc_index` scan: descriptor fetch succeeds, and for a VID/PID
match the transient open and each string fetch demanded by a given filter
succeed. -/
def wfDevice (vendor product : Nat) (description serial : Option String)
    (d : UsbDevice) : Prop :=
  0 ≤ d.descResult ∧
  (d.desc.idVendor = vendor ∧ d.desc.idProduct = product →
    0 ≤ d.openResult ∧
    (description.isSome → 0 ≤ d.productStringResult) ∧
    (serial.isSome → 0 ≤ d.serialStringResult))

/-- A demonstration open session: handle present, interface 0 claimed,
endpoints from `demoCdcDeviceInFirst`. -/
def demoOpenCtx : CdcCtx :=
  ⟨true, [0], 5000, 5000, 129, 2, "cdc_init", CDC_SUCCESS, .AUTO_DETACH_CDC_MODULE⟩

/-- Transport responses making `cdc_usb_open_dev` fail at the
set-configuration step (step 4). -/
def demoOpenEnvCfgFail : OpenEnv := ⟨0, 0, -1, 0, 0⟩

/-- C1 counterexample: starting from a Closed session, a failure at the
set-configuration step (step 4) returns an error yet leaves the device
handle open — `open` is not atomic over steps 3-6. -/
theorem c1_open_set_config_counterexample :
    (cdc_usb_open_dev cdc_init_ctx (some demoCdcDeviceInFirst) demoOpenEnvCfgFail).ret
        < 0 ∧
    (cdc_usb_open_dev cdc_init_ctx (some demoCdcDeviceInFirst)
        demoOpenEnvCfgFail).ctx.usb_dev = true := by
  exact ⟨by decide, by decide⟩

/-- C1 (amended): starting from a Closed session with nothing claimed, a
failure at the interface-claim step (step 5) or at the initial line-coding
step (step 6) of `cdc_usb_open_dev` returns an error and leaves the session
Closed with no handle and no claimed interface; a failure at the
set-configuration step (step 4), however, returns an error while leaving the
device handle open (no rollback there). -/
theorem c1_open_dev_rollback (ctx : CdcCtx) (dev : Option UsbDevice)
    (env : OpenEnv) (m : EndpointMap) (s : InterfaceDescriptor)
    (hdev : ctx.usb_dev = false) (hcl : ctx.claimed = []) :
    (0 ≤ env.open_result → 0 ≤ env.set_config_result → env.claim_result < 0 →
      (cdc_usb_open_dev ctx dev env).ret < 0 ∧
      (cdc_usb_open_dev ctx dev env).ctx.usb_dev = false ∧
      (cdc_usb_open_dev ctx dev env).ctx.claimed = []) ∧
    (0 ≤ env.open_result → 0 ≤ env.set_config_result → 0 ≤ env.claim_result →
      env.control_result < 0 →
      (cdc_usb_open_dev ctx dev env).ret < 0 ∧
      (cdc_usb_open_dev ctx dev env).ctx.usb_dev = false ∧
      (cdc_usb_open_dev ctx dev env).ctx.claimed = []) ∧
    (cdc_usb_endpoints_internal dev = .ok (m, s) → 0 ≤ env.open_result →
      env.set_config_result < 0 →
      (cdc_usb_open_dev ctx dev env).ret < 0 ∧
      (cdc_usb_open_dev ctx dev env).ctx.usb_dev = true) := by
  refine ⟨?_, ?_, ?_⟩
  · intro h1 h2 h3
    cases hW : cdc_usb_endpoints_internal dev with
    | error p =>
      obtain ⟨e, lbl⟩ := p
      have he : e < 0 := endpoints_internal_error_neg dev e lbl hW
      simp [cdc_usb_open_dev, hW, cdc_return, hdev, hcl, he]
    | ok p =>
      obtain ⟨m0, s0⟩ := p
      have h1' : ¬ env.open_result < 0 := by omega
      have h2' : ¬ env.set_config_result < 0 := by omega
      simp [cdc_usb_open_dev, hW, h1', h2', h3, cdc_return, cdc_usb_close_internal]
  · intro h1 h2 h3 h4
    cases hW : cdc_usb_endpoints_internal dev with
    | error p =>
      obtain ⟨e, lbl⟩ := p
      have he : e < 0 := endpoints_internal_error_neg dev e lbl hW
      simp [cdc_usb_open_dev, hW, cdc_return, hdev, hcl, he]
    | ok p =>
      obtain ⟨m0, s0⟩ := p
      have h1' : ¬ env.open_result < 0 := by omega
      have h2' : ¬ env.set_config_result < 0 := by omega
      have h3' : ¬ env.claim_result < 0 := by omega
      simp [cdc_usb_open_dev, hW, h1', h2', h3', h4, cdc_return,
        cdc_usb_close_internal, cdc_set_line_coding]
  · intro hW h1 h2
    have h1' : ¬ env.open_result < 0 := by omega
    simp only [cdc_usb_open_dev, hW, h1', if_false, if_pos h2]
    constructor
    · split <;> simp [cdc_return, CDC_ERROR_ACCESS] <;> omega
    · split <;> simp [cdc_return]

/-- Transport responses making `cdc_usb_open_dev` fail at the
interface-claim step (step 5). -/
def demoOpenEnvClaimFail : OpenEnv := ⟨0, 0, 0, -1, 0⟩

/-- Witness for C1 (amended) at a concrete input: an interface-claim failure
leaves the session Closed with nothing claimed. -/
theorem c1_open_dev_rollback_witness :
    (cdc_usb_open_dev cdc_init_ctx (some demoCdcDeviceInFirst)
        demoOpenEnvClaimFail).ret < 0 ∧
    (cdc_usb_open_dev cdc_init_ctx (some demoCdcDeviceInFirst)
        demoOpenEnvClaimFail).ctx.usb_dev = false ∧
    (cdc_usb_open_dev cdc_init_ctx (some demoCdcDeviceInFirst)
        demoOpenEnvClaimFail).ctx.claimed = [] :=
  (c1_open_dev_rollback cdc_init_ctx (some demoCdcDeviceInFirst)
      demoOpenEnvClaimFail ⟨0, 0, 0, 0, 0⟩ ⟨0, []⟩ rfl rfl).1
    (by decide) (by decide) (by decide)

theorem close_internal_usb_dev (ctx : CdcCtx) :
    (cdc_usb_close_internal ctx).usb_dev = false := by
  simp only [cdc_usb_close_internal]
  split <;> simp_all

/-- C5 counterexample: `cdc_usb_close` on an already-Closed session is not a
no-op — it still passes the absent handle to the transport's release call,
and returns whatever that call yields (here an error), not success. -/
theorem c5_close_closed_counterexample :
    (cdc_usb_close cdc_init_ctx fun _ _ => (-4 : Int)).ret ≠ CDC_SUCCESS ∧
    (cdc_usb_close cdc_init_ctx fun _ _ => (-4 : Int)).attempts = [(false, 0)] := by
  exact ⟨by decide, by decide⟩

/-- C5 (amended): `cdc_usb_close` on any session (Open or Closed — there is
no state check) attempts to release interfaces 0 and 1 sequentially, passing
the session's current handle (absent included) to the transport; it stops
after the first release whose result is non-zero, always ends with the
handle absent, propagates a negative release result, and returns success
when both releases return success.  A Closed session is thus a no-op
returning success only if the transport's release calls on the absent handle
say so. -/
theorem c5_close_release (ctx : CdcCtx) (release : Bool → Nat → Int) :
    ((cdc_usb_close ctx release).ctx.usb_dev = false) ∧
    (release ctx.usb_dev 0 ≠ CDC_SUCCESS →
      (cdc_usb_close ctx release).attempts = [(ctx.usb_dev, 0)]) ∧
    (release ctx.usb_dev 0 = CDC_SUCCESS →
      (cdc_usb_close ctx release).attempts = [(ctx.usb_dev, 0), (ctx.usb_dev, 1)]) ∧
    (release ctx.usb_dev 0 < 0 →
      (cdc_usb_close ctx release).ret = release ctx.usb_dev 0) ∧
    (release ctx.usb_dev 0 = CDC_SUCCESS → release ctx.usb_dev 1 < 0 →
      (cdc_usb_close ctx release).ret = release ctx.usb_dev 1) ∧
    (release ctx.usb_dev 0 = CDC_SUCCESS → release ctx.usb_dev 1 = CDC_SUCCESS →
      (cdc_usb_close ctx release).ret = CDC_SUCCESS) := by
  refine ⟨?_, ?_, ?_, ?_, ?_, ?_⟩
  · simp only [cdc_usb_close]
    split <;> split <;> simp [cdc_return, close_internal_usb_dev]
  · intro h0
    simp [cdc_usb_close, h0]
    split <;> rfl
  · intro h0
    simp [cdc_usb_close, h0]
    split <;> rfl
  · intro h0
    have h0' : release ctx.usb_dev 0 ≠ CDC_SUCCESS := by
      simp only [CDC_SUCCESS]; omega
    simp [cdc_usb_close, h0', h0, cdc_return]
  · intro h0 h1
    simp [cdc_usb_close, h0, h1, cdc_return, CDC_SUCCESS]
  · intro h0 h1
    simp [cdc_usb_close, h0, h1, CDC_SUCCESS]

/-- Witness for C5 (amended): on an Open session whose transport accepts both
releases, close releases 0 then 1, returns success, and clears the handle. -/
theorem c5_close_release_witness :
    (cdc_usb_close demoOpenCtx fun _ _ => (0 : Int)).ctx.usb_dev = false ∧
    (cdc_usb_close demoOpenCtx fun _ _ => (0 : Int)).attempts =
      [(true, 0), (true, 1)] ∧
    (cdc_usb_close demoOpenCtx fun _ _ => (0 : Int)).ret = CDC_SUCCESS :=
  ⟨(c5_close_release demoOpenCtx fun _ _ => (0 : Int)).1,
   (c5_close_release demoOpenCtx fun _ _ => (0 : Int)).2.2.1 (by decide),
   (c5_close_release demoOpenCtx fun _ _ => (0 : Int)).2.2.2.2.2 (by decide)
     (by decide)⟩

theorem read_ret_eq (ctx : CdcCtx) (size : Nat) (env : BulkEnv) :
    (cdc_read_data ctx size env).ret =
      if env.result = LIBUSB_ERROR_TIMEOUT ∧ env.actual_size ≠ 0 then
        (env.actual_size : Int)
      else if env.result < 0 then env.result else (env.actual_size : Int) := by
  simp only [cdc_read_data, cdc_return]
  by_cases hT : env.result = LIBUSB_ERROR_TIMEOUT ∧ env.actual_size ≠ 0
  · simp [hT, LIBUSB_SUCCESS]
  · simp only [if_neg hT]
    split <;> rfl

theorem write_ret_eq (ctx : CdcCtx) (size : Nat) (env : BulkEnv) :
    (cdc_write_data ctx size env).ret =
      if env.result = LIBUSB_ERROR_TIMEOUT ∧ env.actual_size ≠ 0 then
        (env.actual_size : Int)
      else if env.result < 0 then env.result else (env.actual_size : Int) := by
  simp only [cdc_write_data, cdc_return]
  by_cases hT : env.result = LIBUSB_ERROR_TIMEOUT ∧ env.actual_size ≠ 0
  · simp [hT, LIBUSB_SUCCESS]
  · simp only [if_neg hT]
    split <;> rfl

/-- C6: `cdc_read_data` and `cdc_write_data` return `CDC_ERROR_TIMEOUT` only
when zero bytes were transferred; a bulk timeout with a non-zero transferred
count is returned as success with that count; any other negative transport
result propagates unchanged; and a non-negative return value is at most the
requested length. -/
theorem c6_rw_partial_timeout (ctx : CdcCtx) (size : Nat) (env : BulkEnv)
    (hsz : env.actual_size ≤ size) :
    ((cdc_read_data ctx size env).ret = CDC_ERROR_TIMEOUT → env.actual_size = 0) ∧
    (env.result = LIBUSB_ERROR_TIMEOUT → env.actual_size = 0 →
      (cdc_read_data ctx size env).ret = CDC_ERROR_TIMEOUT) ∧
    (env.result = LIBUSB_ERROR_TIMEOUT → env.actual_size ≠ 0 →
      (cdc_read_data ctx size env).ret = (env.actual_size : Int)) ∧
    (env.result < 0 → env.result ≠ LIBUSB_ERROR_TIMEOUT →
      (cdc_read_data ctx size env).ret = env.result) ∧
    (0 ≤ (cdc_read_data ctx size env).ret →
      (cdc_read_data ctx size env).ret ≤ (size : Int)) ∧
    ((cdc_write_data ctx size env).ret = CDC_ERROR_TIMEOUT → env.actual_size = 0) ∧
    (env.result = LIBUSB_ERROR_TIMEOUT → env.actual_size = 0 →
      (cdc_write_data ctx size env).ret = CDC_ERROR_TIMEOUT) ∧
    (env.result = LIBUSB_ERROR_TIMEOUT → env.actual_size ≠ 0 →
      (cdc_write_data ctx size env).ret = (env.actual_size : Int)) ∧
    (env.result < 0 → env.result ≠ LIBUSB_ERROR_TIMEOUT →
      (cdc_write_data ctx size env).ret = env.result) ∧
    (0 ≤ (cdc_write_data ctx size env).ret →
      (cdc_write_data ctx size env).ret ≤ (size : Int)) := by
  simp only [read_ret_eq ctx size env, write_ret_eq ctx size env,
    LIBUSB_ERROR_TIMEOUT, CDC_ERROR_TIMEOUT]
  split_ifs <;> refine ⟨?_, ?_, ?_, ?_, ?_, ?_, ?_, ?_, ?_, ?_⟩ <;> intros <;>
    first
    | contradiction
    | omega

/-- Witness for C6 at a concrete input: a bulk timeout that moved 10 of 64
bytes is reported as success with count 10, for both read and write. -/
theorem c6_rw_partial_timeout_witness :
    (cdc_read_data demoOpenCtx 64 ⟨-7, 10⟩).ret = (10 : Int) ∧
    (cdc_write_data demoOpenCtx 64 ⟨-7, 10⟩).ret = (10 : Int) :=
  ⟨(c6_rw_partial_timeout demoOpenCtx 64 ⟨-7, 10⟩ (by decide)).2.2.1 (by decide)
      (by decide),
   (c6_rw_partial_timeout demoOpenCtx 64 ⟨-7, 10⟩ (by decide)).2.2.2.2.2.2.2.1
      (by decide) (by decide)⟩

/-- C8: `cdc_set_line_coding` serializes the line coding into exactly 7
bytes — the baud rate little-endian in bytes 0-3, then the stop-bits code,
the parity code, and the bits code — and ships exactly that payload in a
class-specific control transfer (request type 0x21, request 0x20, zero
value and index); LineCoding 9600-8N1 serializes to
80 25 00 00 00 00 08. -/
theorem c8_line_coding_serialization (ctx : CdcCtx)
    (baudrate bits sbit parity : Nat) (transferResult : Int)
    (hb : baudrate < 4294967296) (hbits : bits < 256) (hsb : sbit < 256)
    (hp : parity < 256) (hopen : ctx.usb_dev = true) :
    (lineCodingBytes baudrate bits sbit parity).length = 7 ∧
    (lineCodingBytes baudrate bits sbit parity).getD 0 0 +
        256 * (lineCodingBytes baudrate bits sbit parity).getD 1 0 +
        65536 * (lineCodingBytes baudrate bits sbit parity).getD 2 0 +
        16777216 * (lineCodingBytes baudrate bits sbit parity).getD 3 0 =
      baudrate ∧
    (lineCodingBytes baudrate bits sbit parity).getD 4 0 = sbit ∧
    (lineCodingBytes baudrate bits sbit parity).getD 5 0 = parity ∧
    (lineCodingBytes baudrate bits sbit parity).getD 6 0 = bits ∧
    (cdc_set_line_coding ctx baudrate bits sbit parity transferResult).calls =
      [⟨true, 0x21, 0x20, 0, 0, lineCodingBytes baudrate bits sbit parity, 0⟩] ∧
    lineCodingBytes 9600 8 0 0 = [0x80, 0x25, 0x00, 0x00, 0x00, 0x00, 0x08] := by
  refine ⟨rfl, ?_, ?_, ?_, ?_, ?_, by decide⟩
  · simp only [lineCodingBytes, List.getD]
    simp
    omega
  · simp only [lineCodingBytes, List.getD]
    simp
    omega
  · simp only [lineCodingBytes, List.getD]
    simp
    omega
  · simp only [lineCodingBytes, List.getD]
    simp
    omega
  · simp only [cdc_set_line_coding, hopen]
    rw [if_neg (by simp)]
    split <;> rfl

/-- Witness for C8 at the concrete 9600-8N1 input of the claim. -/
theorem c8_line_coding_serialization_witness :
    lineCodingBytes 9600 8 0 0 = [128, 37, 0, 0, 0, 0, 8] ∧
    (cdc_set_line_coding demoOpenCtx 9600 8 0 0 0).calls =
      [⟨true, 33, 32, 0, 0, lineCodingBytes 9600 8 0 0, 0⟩] :=
  ⟨(c8_line_coding_serialization demoOpenCtx 9600 8 0 0 0 (by decide) (by decide)
      (by decide) (by decide) rfl).2.2.2.2.2.2,
   (c8_line_coding_serialization demoOpenCtx 9600 8 0 0 0 (by decide) (by decide)
      (by decide) (by decide) rfl).2.2.2.2.2.1⟩

/-- C9: on a session whose handle is absent, `cdc_read_data` and
`cdc_write_data` perform no open-state check: they pass the absent handle
straight to the transport's bulk transfer (exactly one call, carrying the
absent handle, the session endpoint and timeout) and return whatever the
transport outcome dictates (a non-negative transport result yields the
transferred count, not an error); `cdc_set_line_coding` and `cdc_setdtr_rts`
instead fail with `CDC_ERROR_NO_DEVICE` without touching the transport. -/
theorem c9_rw_no_open_check (ctx : CdcCtx) (size : Nat) (env : BulkEnv)
    (baudrate bits sbit parity : Nat) (transferResult : Int) (dtr rts : Int)
    (hclosed : ctx.usb_dev = false) :
    (cdc_read_data ctx size env).calls =
      [⟨false, ctx.out_ep, size, ctx.usb_read_timeout⟩] ∧
    (cdc_write_data ctx size env).calls =
      [⟨false, ctx.in_ep, size, ctx.usb_write_timeout⟩] ∧
    (0 ≤ env.result →
      (cdc_read_data ctx size env).ret = (env.actual_size : Int) ∧
      (cdc_write_data ctx size env).ret = (env.actual_size : Int)) ∧
    (cdc_set_line_coding ctx baudrate bits sbit parity transferResult).ret =
      CDC_ERROR_NO_DEVICE ∧
    (cdc_set_line_coding ctx baudrate bits sbit parity transferResult).calls = [] ∧
    (cdc_setdtr_rts ctx dtr rts transferResult).ret = CDC_ERROR_NO_DEVICE ∧
    (cdc_setdtr_rts ctx dtr rts transferResult).calls = [] := by
  refine ⟨?_, ?_, ?_, ?_, ?_, ?_, ?_⟩
  · simp only [cdc_read_data, hclosed]
    split <;> split <;> rfl
  · simp only [cdc_write_data, hclosed]
    split <;> split <;> rfl
  · intro hres
    rw [read_ret_eq, write_ret_eq]
    have hn7 : ¬ (env.result = LIBUSB_ERROR_TIMEOUT ∧ env.actual_size ≠ 0) := by
      simp only [LIBUSB_ERROR_TIMEOUT]
      omega
    have hneg : ¬ env.result < 0 := by omega
    simp [hn7, hneg]
  · simp [cdc_set_line_coding, hclosed, cdc_return]
  · simp [cdc_set_line_coding, hclosed]
  · simp [cdc_setdtr_rts, hclosed, cdc_return]
  · simp [cdc_setdtr_rts, hclosed]

/-- Witness for C9 at a concrete input: on a Closed session a successful
transport outcome makes read/write return the count, while
`cdc_set_line_coding` fails with `CDC_ERROR_NO_DEVICE` and no transport
call. -/
theorem c9_rw_no_open_check_witness :
    (cdc_read_data cdc_init_ctx 8 ⟨0, 5⟩).calls = [⟨false, 0, 8, 5000⟩] ∧
    (cdc_read_data cdc_init_ctx 8 ⟨0, 5⟩).ret = (5 : Int) ∧
    (cdc_set_line_coding cdc_init_ctx 9600 8 0 0 0).ret = CDC_ERROR_NO_DEVICE ∧
    (cdc_set_line_coding cdc_init_ctx 9600 8 0 0 0).calls = [] :=
  ⟨(c9_rw_no_open_check cdc_init_ctx 8 ⟨0, 5⟩ 9600 8 0 0 0 0 0 rfl).1,
   ((c9_rw_no_open_check cdc_init_ctx 8 ⟨0, 5⟩ 9600 8 0 0 0 0 0 rfl).2.2.1
      (by decide)).1,
   (c9_rw_no_open_check cdc_init_ctx 8 ⟨0, 5⟩ 9600 8 0 0 0 0 0 rfl).2.2.2.1,
   (c9_rw_no_open_check cdc_init_ctx 8 ⟨0, 5⟩ 9600 8 0 0 0 0 0 rfl).2.2.2.2.1⟩

theorem findAllAux_spec (vendor product : Nat) (alloc : Nat → Bool)
    (devs : List UsbDevice) :
    ∀ (ctx : CdcCtx) (count aIdx : Nat) (acc : List UsbDevice),
    (findAllAux vendor product alloc ctx devs count aIdx acc).rawFreed = true ∧
    (0 ≤ (findAllAux vendor product alloc ctx devs count aIdx acc).ret →
      (findAllAux vendor product alloc ctx devs count aIdx acc).ret +
          (acc.length : Int) =
        (count : Int) +
          ((findAllAux vendor product alloc ctx devs count aIdx acc).entries.length :
            Int)) := by
  induction devs with
  | nil =>
    intro ctx count aIdx acc
    simp [findAllAux]
  | cons dev rest ih =>
    intro ctx count aIdx acc
    simp only [findAllAux]
    by_cases hvp : vendor = 0 ∧ product = 0
    · rw [if_pos hvp]
      cases hW : cdc_usb_endpoints_internal (some dev) with
      | error p =>
        obtain ⟨e, lbl⟩ := p
        have he : e < 0 := endpoints_internal_error_neg (some dev) e lbl hW
        dsimp only
        by_cases hnf : e = CDC_ERROR_NOT_FOUND
        · rw [if_pos hnf]
          exact ih _ count aIdx acc
        · rw [if_neg hnf]
          refine ⟨by trivial, ?_⟩
          simp only [cdc_return]
          intro hret
          omega
      | ok p =>
        dsimp only
        by_cases hal : alloc aIdx = true
        · rw [if_pos hal]
          have hrec := ih ctx (count + 1) (aIdx + 1) (acc ++ [dev])
          refine ⟨hrec.1, ?_⟩
          intro hret
          have h2 := hrec.2 hret
          have hlen : ((acc ++ [dev]).length : Int) = (acc.length : Int) + 1 := by
            simp
          omega
        · rw [if_neg hal]
          refine ⟨by trivial, ?_⟩
          simp only [cdc_return, CDC_ERROR_NO_MEM]
          intro hret
          omega
    · rw [if_neg hvp]
      by_cases hdesc : dev.descResult < 0
      · rw [if_pos hdesc]
        refine ⟨by trivial, ?_⟩
        simp only [cdc_return]
        intro hret
        omega
      · rw [if_neg hdesc]
        by_cases hvid : dev.desc.idVendor = vendor ∧ dev.desc.idProduct = product
        · rw [if_pos hvid]
          by_cases hal : alloc aIdx = true
          · rw [if_pos hal]
            have hrec := ih ctx (count + 1) (aIdx + 1) (acc ++ [dev])
            refine ⟨hrec.1, ?_⟩
            intro hret
            have h2 := hrec.2 hret
            have hlen : ((acc ++ [dev]).length : Int) = (acc.length : Int) + 1 := by
              simp
            omega
          · rw [if_neg hal]
            refine ⟨by trivial, ?_⟩
            simp only [cdc_return, CDC_ERROR_NO_MEM]
            intro hret
            omega
        · rw [if_neg hvid]
          exact ih ctx count aIdx acc

/-- C3 (amended): `cdc_usb_find_all` always releases the raw device list
before returning, whatever the outcome, and on success returns exactly the
number of result-list entries it built; but a mid-scan failure does NOT
release the partially built result-list entries — they remain linked from
`*devlist`, each still holding its device reference, while the error
propagates. -/
theorem c3_find_all_resources (ctx : CdcCtx) (listResult : Int)
    (devs : List UsbDevice) (vendor product : Nat) (alloc : Nat → Bool) :
    (cdc_usb_find_all ctx listResult devs vendor product alloc).rawFreed = true ∧
    (0 ≤ (cdc_usb_find_all ctx listResult devs vendor product alloc).ret →
      (cdc_usb_find_all ctx listResult devs vendor product alloc).ret =
        ((cdc_usb_find_all ctx listResult devs vendor product
            alloc).entries.length : Int)) := by
  simp only [cdc_usb_find_all]
  split
  · refine ⟨rfl, ?_⟩
    intro hret
    exfalso
    simp only [cdc_return] at hret
    omega
  · have h := findAllAux_spec vendor product alloc devs ctx 0 0 []
    refine ⟨h.1, ?_⟩
    intro hret
    have h2 := h.2 hret
    simpa using h2

/-- Witness for C3 (amended) at a concrete input: a clean scan of one CDC
device frees the raw list and reports one entry. -/
theorem c3_find_all_resources_witness :
    (cdc_usb_find_all cdc_init_ctx 0 [demoCdcDeviceInFirst] 0 0
        (fun _ => true)).rawFreed = true ∧
    (cdc_usb_find_all cdc_init_ctx 0 [demoCdcDeviceInFirst] 0 0
        (fun _ => true)).ret =
      ((cdc_usb_find_all cdc_init_ctx 0 [demoCdcDeviceInFirst] 0 0
          (fun _ => true)).entries.length : Int) :=
  ⟨(c3_find_all_resources cdc_init_ctx 0 [demoCdcDeviceInFirst] 0 0
      (fun _ => true)).1,
   (c3_find_all_resources cdc_init_ctx 0 [demoCdcDeviceInFirst] 0 0
      (fun _ => true)).2 (by decide)⟩

/-- A device whose first configuration-descriptor fetch fails with -1,
aborting a vendor-0/product-0 scan mid-way. -/
def demoCfgFetchFailDevice : UsbDevice :=
  ⟨0, ⟨1, 2⟩, [(-1, ⟨[]⟩)], 0, 0, "", 0, ""⟩

/-- C3 counterexample: when the walker's descriptor fetch fails on the second
device, `cdc_usb_find_all` propagates the error but the entry already built
for the first device is NOT released: it is still reachable from `*devlist`.
A partial result list is therefore returned to the caller on error. -/
theorem c3_partial_entries_counterexample :
    (cdc_usb_find_all cdc_init_ctx 0 [demoCdcDeviceInFirst, demoCfgFetchFailDevice]
        0 0 (fun _ => true)).ret = -1 ∧
    (cdc_usb_find_all cdc_init_ctx 0 [demoCdcDeviceInFirst, demoCfgFetchFailDevice]
        0 0 (fun _ => true)).entries = [demoCdcDeviceInFirst] ∧
    (cdc_usb_find_all cdc_init_ctx 0 [demoCdcDeviceInFirst, demoCfgFetchFailDevice]
        0 0 (fun _ => true)).entries ≠ [] := by
  exact ⟨by decide, by decide, by decide⟩

theorem filterCheck_pass_or_mismatch (f : Option String) (r : Int) (s lbl : String)
    (hr : f.isSome → 0 ≤ r) :
    (filterCheck f r s lbl = .pass ∧ filterBool f s = true) ∨
    (filterCheck f r s lbl = .mismatch ∧ filterBool f s = false) := by
  cases f with
  | none => exact Or.inl ⟨rfl, rfl⟩
  | some x =>
    have hr' : ¬ r < 0 := by
      have := hr (by simp)
      omega
    by_cases hs : s = x
    · left
      constructor
      · simp only [filterCheck, if_neg hr', if_pos hs]
      · simp [filterBool, hs]
    · right
      constructor
      · simp only [filterCheck, if_neg hr', if_neg hs]
      · simp [filterBool, hs]

/-- C7: `cdc_usb_open_desc_index` counts a VID/PID-matching device toward
`index` only after it passes all given description/serial filters; when the
transport is well-behaved on the scanned devices, the `index`-th (0-based)
surviving match is handed to the full `cdc_usb_open_dev` state machine
exactly once — starting from the Closed session state, after the transient
string-reading handle was closed — and when fewer than `index + 1` devices
survive filtering the call fails with `CDC_ERROR_NOT_FOUND` without any full
open. -/
theorem c7_open_desc_index_filtering (ctx : CdcCtx) (devs : List UsbDevice)
    (vendor product : Nat) (description serial : Option String) (oenv : OpenEnv)
    (index : Nat) (hdev : ctx.usb_dev = false) (hcl : ctx.claimed = [])
    (hwf : ∀ d ∈ devs, wfDevice vendor product description serial d) :
    (∀ d, (devs.filter (surviving vendor product description serial)).get? index =
        some d →
      (openDescIndexAux vendor product description serial oenv ctx devs
          index).fullOpens = [d] ∧
      (openDescIndexAux vendor product description serial oenv ctx devs index).ret =
        (cdc_usb_open_dev ctx (some d) oenv).ret) ∧
    ((devs.filter (surviving vendor product description serial)).length ≤ index →
      (openDescIndexAux vendor product description serial oenv ctx devs index).ret =
        CDC_ERROR_NOT_FOUND ∧
      (openDescIndexAux vendor product description serial oenv ctx devs
          index).fullOpens = []) := by
  have hctx2 : cdc_usb_close_internal {ctx with usb_dev := true} = ctx := by
    cases ctx
    simp_all [cdc_usb_close_internal]
  revert hwf
  induction devs generalizing index with
  | nil =>
    intro hwf
    refine ⟨?_, ?_⟩
    · intro d h
      simp at h
    · intro _
      exact ⟨rfl, rfl⟩
  | cons dev rest ih =>
    intro hwf
    have hwd := hwf dev (List.mem_cons_self dev rest)
    have hwr : ∀ d ∈ rest, wfDevice vendor product description serial d :=
      fun d hd => hwf d (List.mem_cons_of_mem dev hd)
    have hdesc : ¬ dev.descResult < 0 := by
      have := hwd.1
      omega
    simp only [openDescIndexAux]
    rw [if_neg hdesc]
    by_cases hvid : dev.desc.idVendor = vendor ∧ dev.desc.idProduct = product
    · rw [if_pos hvid]
      obtain ⟨hopen, hps, hss⟩ := hwd.2 hvid
      have hopen' : ¬ dev.openResult < 0 := by omega
      rw [if_neg hopen']
      rcases filterCheck_pass_or_mismatch description dev.productStringResult
          dev.productString
          "libusb_get_string_descriptor_ascii product description" hps with
        ⟨hfc1, hcomp1⟩ | ⟨hfc1, hcomp1⟩
      · rw [hfc1]
        dsimp only
        rcases filterCheck_pass_or_mismatch serial dev.serialStringResult
            dev.serialString
            "libusb_get_string_descriptor_ascii serial number" hss with
          ⟨hfc2, hcomp2⟩ | ⟨hfc2, hcomp2⟩
        · rw [hfc2]
          dsimp only
          rw [hctx2]
          have hsurv : surviving vendor product description serial dev = true := by
            simp only [surviving, Bool.and_eq_true, decide_eq_true_eq, beq_iff_eq]
            exact ⟨⟨⟨⟨hwd.1, hvid.1⟩, hvid.2⟩, hcomp1⟩, hcomp2⟩
          rw [List.filter_cons, if_pos hsurv]
          cases index with
          | zero =>
            rw [if_neg (by omega : ¬ 0 < 0)]
            refine ⟨?_, ?_⟩
            · intro d h
              simp only [List.get?] at h
              injection h with h
              subst h
              exact ⟨rfl, rfl⟩
            · intro h
              simp at h
          | succ n =>
            rw [if_pos (by omega : 0 < n + 1)]
            have hred : n + 1 - 1 = n := rfl
            rw [hred]
            have hih := ih n hwr
            refine ⟨?_, ?_⟩
            · intro d h
              simp only [List.get?] at h
              exact hih.1 d h
            · intro h
              simp only [List.length_cons] at h
              exact hih.2 (by omega)
        · rw [hfc2]
          dsimp only
          rw [hctx2]
          have hsurv : surviving vendor product description serial dev = false := by
            simp [surviving, hcomp2]
          rw [List.filter_cons, if_neg (by simp [hsurv])]
          exact ih index hwr
      · rw [hfc1]
        dsimp only
        rw [hctx2]
        have hsurv : surviving vendor product description serial dev = false := by
          simp [surviving, hcomp1]
        rw [List.filter_cons, if_neg (by simp [hsurv])]
        exact ih index hwr
    · rw [if_neg hvid]
      have hsurv : surviving vendor product description serial dev = false := by
        rcases not_and_or.mp hvid with h | h <;> simp [surviving, h]
      rw [List.filter_cons, if_neg (by simp [hsurv])]
      exact ih index hwr

/-- A CDC device with VID 0x1234 / PID 0x5678 and serial string SN1. -/
def demoSerialDevA : UsbDevice :=
  ⟨0, ⟨4660, 22136⟩, [(0, ⟨[⟨[⟨10, [2, 129]⟩]⟩]⟩)], 0, 0, "Prod", 0, "SN1"⟩

/-- The same device identity but with serial string SN2. -/
def demoSerialDevB : UsbDevice :=
  ⟨0, ⟨4660, 22136⟩, [(0, ⟨[⟨[⟨10, [2, 129]⟩]⟩]⟩)], 0, 0, "Prod", 0, "SN2"⟩

/-- Witness for C7 at the spec's own scenario: index 1 with two VID/PID
matches of which only one passes the serial filter fails with
`CDC_ERROR_NOT_FOUND` and performs no full open. -/
theorem c7_open_desc_index_filtering_witness :
    (openDescIndexAux 4660 22136 none (some "SN1") ⟨0, 0, 0, 0, 0⟩ cdc_init_ctx
        [demoSerialDevA, demoSerialDevB] 1).ret = CDC_ERROR_NOT_FOUND ∧
    (openDescIndexAux 4660 22136 none (some "SN1") ⟨0, 0, 0, 0, 0⟩ cdc_init_ctx
        [demoSerialDevA, demoSerialDevB] 1).fullOpens = [] :=
  (c7_open_desc_index_filtering cdc_init_ctx [demoSerialDevA, demoSerialDevB]
      4660 22136 none (some "SN1") ⟨0, 0, 0, 0, 0⟩ 1 rfl rfl
      (by
        intro d hd
        rcases List.mem_cons.mp hd with rfl | hd
        · exact ⟨by decide,
            fun _ => ⟨by decide, fun _ => by decide, fun _ => by decide⟩⟩
        · rcases List.mem_cons.mp hd with rfl | hd
          · exact ⟨by decide,
              fun _ => ⟨by decide, fun _ => by decide, fun _ => by decide⟩⟩
          · cases hd)).2
    (by decide)

theorem read_last_error (ctx : CdcCtx) (size : Nat) (env : BulkEnv) :
    ((cdc_read_data ctx size env).ret < 0 →
      (cdc_read_data ctx size env).ctx.error_code = (cdc_read_data ctx size env).ret) ∧
    (0 ≤ (cdc_read_data ctx size env).ret → (cdc_read_data ctx size env).ctx = ctx) := by
  simp only [cdc_read_data, cdc_return]
  split <;> split
  · exact absurd (by assumption : LIBUSB_SUCCESS < 0) (by decide)
  · refine ⟨fun h => ?_, fun _ => rfl⟩
    dsimp only at h
    omega
  · refine ⟨fun _ => rfl, fun h => ?_⟩
    dsimp only at h
    omega
  · refine ⟨fun h => ?_, fun _ => rfl⟩
    dsimp only at h
    omega

theorem write_last_error (ctx : CdcCtx) (size : Nat) (env : BulkEnv) :
    ((cdc_write_data ctx size env).ret < 0 →
      (cdc_write_data ctx size env).ctx.error_code =
        (cdc_write_data ctx size env).ret) ∧
    (0 ≤ (cdc_write_data ctx size env).ret →
      (cdc_write_data ctx size env).ctx = ctx) := by
  simp only [cdc_write_data, cdc_return]
  split <;> split
  · exact absurd (by assumption : LIBUSB_SUCCESS < 0) (by decide)
  · refine ⟨fun h => ?_, fun _ => rfl⟩
    dsimp only at h
    omega
  · refine ⟨fun _ => rfl, fun h => ?_⟩
    dsimp only at h
    omega
  · refine ⟨fun h => ?_, fun _ => rfl⟩
    dsimp only at h
    omega

theorem set_line_coding_last_error (ctx : CdcCtx) (baudrate bits sbit parity : Nat)
    (transferResult : Int) :
    ((cdc_set_line_coding ctx baudrate bits sbit parity transferResult).ret < 0 →
      (cdc_set_line_coding ctx baudrate bits sbit parity
          transferResult).ctx.error_code =
        (cdc_set_line_coding ctx baudrate bits sbit parity transferResult).ret) ∧
    (0 ≤ (cdc_set_line_coding ctx baudrate bits sbit parity transferResult).ret →
      (cdc_set_line_coding ctx baudrate bits sbit parity transferResult).ctx =
        ctx) := by
  simp only [cdc_set_line_coding, cdc_return]
  split
  · refine ⟨fun _ => rfl, fun h => ?_⟩
    dsimp only at h
    exact absurd h (by decide)
  · split
    · refine ⟨fun _ => rfl, fun h => ?_⟩
      dsimp only at h
      omega
    · refine ⟨fun h => ?_, fun _ => rfl⟩
      dsimp only at h
      exact absurd h (by decide)

theorem setdtr_rts_last_error (ctx : CdcCtx) (dtr rts transferResult : Int) :
    ((cdc_setdtr_rts ctx dtr rts transferResult).ret < 0 →
      (cdc_setdtr_rts ctx dtr rts transferResult).ctx.error_code =
        (cdc_setdtr_rts ctx dtr rts transferResult).ret) ∧
    (0 ≤ (cdc_setdtr_rts ctx dtr rts transferResult).ret →
      (cdc_setdtr_rts ctx dtr rts transferResult).ctx = ctx) := by
  simp only [cdc_setdtr_rts, cdc_return]
  split
  · refine ⟨fun _ => rfl, fun h => ?_⟩
    dsimp only at h
    exact absurd h (by decide)
  · split
    · refine ⟨fun _ => rfl, fun h => ?_⟩
      dsimp only at h
      omega
    · refine ⟨fun h => ?_, fun _ => rfl⟩
      dsimp only at h
      exact absurd h (by decide)

theorem close_last_error (ctx : CdcCtx) (release : Bool → Nat → Int) :
    ((cdc_usb_close ctx release).ret < 0 →
      (cdc_usb_close ctx release).ctx.error_code = (cdc_usb_close ctx release).ret) ∧
    (0 ≤ (cdc_usb_close ctx release).ret →
      (cdc_usb_close ctx release).ctx.error_str = ctx.error_str ∧
      (cdc_usb_close ctx release).ctx.error_code = ctx.error_code) := by
  simp only [cdc_usb_close, cdc_return, cdc_usb_close_internal]
  split <;> split
  · refine ⟨fun _ => rfl, fun h => ?_⟩
    dsimp only at h
    omega
  · refine ⟨fun h => ?_, fun _ => ?_⟩
    · dsimp only at h
      exact absurd h (by decide)
    · constructor <;> split <;> rfl
  · refine ⟨fun _ => rfl, fun h => ?_⟩
    dsimp only at h
    omega
  · refine ⟨fun h => ?_, fun _ => ?_⟩
    · dsimp only at h
      exact absurd h (by decide)
    · constructor <;> split <;> rfl

theorem slc_open_eq (c : CdcCtx) (hb : c.usb_dev = true) (b1 b2 b3 b4 : Nat)
    (tr : Int) :
    cdc_set_line_coding c b1 b2 b3 b4 tr =
      if tr < 0 then
        ⟨(cdc_return c tr (some "libusb_control_transfer")).1,
         (cdc_return c tr (some "libusb_control_transfer")).2,
         [⟨c.usb_dev, 33, 32, 0, 0, lineCodingBytes b1 b2 b3 b4, 0⟩]⟩
      else
        ⟨CDC_SUCCESS, c, [⟨c.usb_dev, 33, 32, 0, 0, lineCodingBytes b1 b2 b3 b4, 0⟩]⟩ := by
  simp only [cdc_set_line_coding, hb]
  rfl

theorem open_dev_last_error (ctx : CdcCtx) (dev : Option UsbDevice) (env : OpenEnv) :
    ((cdc_usb_open_dev ctx dev env).ret < 0 →
      (cdc_usb_open_dev ctx dev env).ctx.error_code =
        (cdc_usb_open_dev ctx dev env).ret) ∧
    (0 ≤ (cdc_usb_open_dev ctx dev env).ret →
      (cdc_usb_open_dev ctx dev env).ctx.error_str = ctx.error_str ∧
      (cdc_usb_open_dev ctx dev env).ctx.error_code = ctx.error_code) := by
  cases hW : cdc_usb_endpoints_internal dev with
  | error p =>
    obtain ⟨e, lbl⟩ := p
    have he : e < 0 := endpoints_internal_error_neg dev e lbl hW
    simp only [cdc_usb_open_dev, hW]
    refine ⟨fun _ => rfl, fun h => ?_⟩
    simp only [cdc_return] at h
    omega
  | ok p =>
    obtain ⟨m, s⟩ := p
    simp only [cdc_usb_open_dev, hW]
    split
    · refine ⟨fun _ => rfl, fun h => ?_⟩
      simp only [cdc_return] at h
      omega
    · split
      · split
        · refine ⟨fun _ => rfl, fun h => ?_⟩
          simp only [cdc_return] at h
          exact absurd h (by decide)
        · refine ⟨fun _ => rfl, fun h => ?_⟩
          simp only [cdc_return] at h
          omega
      · split
        · refine ⟨fun _ => rfl, fun h => ?_⟩
          simp only [cdc_return] at h
          omega
        · rw [slc_open_eq]
          split <;> split
          · refine ⟨fun _ => rfl, fun h => ?_⟩
            simp only [cdc_return] at h
            omega
          · exfalso
            simp only [cdc_return] at *
            omega
          · exfalso
            simp_all [CDC_SUCCESS, cdc_return]
          · refine ⟨fun h => ?_, fun _ => ⟨rfl, rfl⟩⟩
            dsimp only at h
            exact absurd h (by decide)
          · rfl

theorem filterCheck_err_neg (f : Option String) (r : Int) (s lbl : String)
    (e : Int) (l2 : String) (h : filterCheck f r s lbl = .err e l2) : e < 0 := by
  cases f with
  | none => exact absurd h (by simp [filterCheck])
  | some x =>
    simp only [filterCheck] at h
    by_cases hr : r < 0
    · rw [if_pos hr] at h
      injection h with h1 h2
      omega
    · rw [if_neg hr] at h
      by_cases hs : s = x
      · rw [if_pos hs] at h
        exact absurd h (by simp)
      · rw [if_neg hs] at h
        exact absurd h (by simp)

theorem openDescAux_last_error (vendor product : Nat)
    (description serial : Option String) (oenv : OpenEnv) (devs : List UsbDevice) :
    ∀ (ctx : CdcCtx) (index : Nat),
    ((openDescIndexAux vendor product description serial oenv ctx devs index).ret <
        0 →
      (openDescIndexAux vendor product description serial oenv ctx devs
          index).ctx.error_code =
        (openDescIndexAux vendor product description serial oenv ctx devs
          index).ret) ∧
    (0 ≤ (openDescIndexAux vendor product description serial oenv ctx devs
        index).ret →
      (openDescIndexAux vendor product description serial oenv ctx devs
          index).ctx.error_str = ctx.error_str ∧
      (openDescIndexAux vendor product description serial oenv ctx devs
          index).ctx.error_code = ctx.error_code) := by
  induction devs with
  | nil =>
    intro ctx index
    refine ⟨fun _ => rfl, fun h => ?_⟩
    simp only [openDescIndexAux, cdc_return] at h
    exact absurd h (by decide)
  | cons dev rest ih =>
    intro ctx index
    simp only [openDescIndexAux]
    split
    · refine ⟨fun _ => rfl, fun h => ?_⟩
      simp only [cdc_return] at h
      omega
    · split
      · split
        · refine ⟨fun _ => rfl, fun h => ?_⟩
          simp only [cdc_return] at h
          omega
        · cases hfc1 : filterCheck description dev.productStringResult
              dev.productString
              "libusb_get_string_descriptor_ascii product description" with
          | err e l2 =>
            have he : e < 0 := filterCheck_err_neg _ _ _ _ _ _ hfc1
            dsimp only
            refine ⟨fun _ => rfl, fun h => ?_⟩
            simp only [cdc_return] at h
            omega
          | mismatch =>
            dsimp only
            exact ih _ index
          | pass =>
            dsimp only
            cases hfc2 : filterCheck serial dev.serialStringResult dev.serialString
                "libusb_get_string_descriptor_ascii serial number" with
            | err e l2 =>
              have he : e < 0 := filterCheck_err_neg _ _ _ _ _ _ hfc2
              dsimp only
              refine ⟨fun _ => rfl, fun h => ?_⟩
              simp only [cdc_return] at h
              omega
            | mismatch =>
              dsimp only
              exact ih _ index
            | pass =>
              dsimp only
              split
              · exact ih _ (index - 1)
              · exact
                  ⟨(open_dev_last_error
                      (cdc_usb_close_internal {ctx with usb_dev := true})
                      (some dev) oenv).1,
                   (open_dev_last_error
                      (cdc_usb_close_internal {ctx with usb_dev := true})
                      (some dev) oenv).2⟩
      · exact ih ctx index

theorem findAllAux_last_error (vendor product : Nat) (alloc : Nat → Bool)
    (devs : List UsbDevice) :
    ∀ (ctx : CdcCtx) (count aIdx : Nat) (acc : List UsbDevice),
    (findAllAux vendor product alloc ctx devs count aIdx acc).ret < 0 →
      (findAllAux vendor product alloc ctx devs count aIdx acc).ctx.error_code =
        (findAllAux vendor product alloc ctx devs count aIdx acc).ret := by
  induction devs with
  | nil =>
    intro ctx count aIdx acc h
    simp only [findAllAux] at h
    exact absurd h (by omega)
  | cons dev rest ih =>
    intro ctx count aIdx acc
    simp only [findAllAux]
    by_cases hvp : vendor = 0 ∧ product = 0
    · rw [if_pos hvp]
      cases hW : cdc_usb_endpoints_internal (some dev) with
      | error p =>
        obtain ⟨e, lbl⟩ := p
        dsimp only
        by_cases hnf : e = CDC_ERROR_NOT_FOUND
        · rw [if_pos hnf]
          exact ih _ count aIdx acc
        · rw [if_neg hnf]
          intro _
          rfl
      | ok p =>
        dsimp only
        by_cases hal : alloc aIdx = true
        · rw [if_pos hal]
          exact ih ctx (count + 1) (aIdx + 1) (acc ++ [dev])
        · rw [if_neg hal]
          intro _
          rfl
    · rw [if_neg hvp]
      by_cases hdesc : dev.descResult < 0
      · rw [if_pos hdesc]
        intro _
        rfl
      · rw [if_neg hdesc]
        by_cases hvid : dev.desc.idVendor = vendor ∧ dev.desc.idProduct = product
        · rw [if_pos hvid]
          by_cases hal : alloc aIdx = true
          · rw [if_pos hal]
            exact ih ctx (count + 1) (aIdx + 1) (acc ++ [dev])
          · rw [if_neg hal]
            intro _
            rfl
        · rw [if_neg hvid]
          exact ih ctx count aIdx acc

theorem find_all_last_error (ctx : CdcCtx) (listResult : Int)
    (devs : List UsbDevice) (vendor product : Nat) (alloc : Nat → Bool) :
    (cdc_usb_find_all ctx listResult devs vendor product alloc).ret < 0 →
      (cdc_usb_find_all ctx listResult devs vendor product alloc).ctx.error_code =
        (cdc_usb_find_all ctx listResult devs vendor product alloc).ret := by
  simp only [cdc_usb_find_all]
  split
  · intro _
    rfl
  · exact findAllAux_last_error vendor product alloc devs ctx 0 0 []

theorem open_desc_index_last_error (ctx : CdcCtx) (listResult : Int)
    (devs : List UsbDevice) (vendor product : Nat)
    (description serial : Option String) (oenv : OpenEnv) (index : Nat) :
    ((cdc_usb_open_desc_index ctx listResult devs vendor product description serial
        oenv index).ret < 0 →
      (cdc_usb_open_desc_index ctx listResult devs vendor product description
          serial oenv index).ctx.error_code =
        (cdc_usb_open_desc_index ctx listResult devs vendor product description
          serial oenv index).ret) ∧
    (0 ≤ (cdc_usb_open_desc_index ctx listResult devs vendor product description
        serial oenv index).ret →
      (cdc_usb_open_desc_index ctx listResult devs vendor product description
          serial oenv index).ctx.error_str = ctx.error_str ∧
      (cdc_usb_open_desc_index ctx listResult devs vendor product description
          serial oenv index).ctx.error_code = ctx.error_code) := by
  simp only [cdc_usb_open_desc_index]
  split
  · refine ⟨fun _ => rfl, fun h => ?_⟩
    simp only [cdc_return] at h
    omega
  · exact openDescAux_last_error vendor product description serial oenv devs ctx
      index

/-- C10 (amended): for every modelled operation on a non-null session, a
negative return value is always mirrored in the session's `error_code` field
(written by `cdc_return` immediately before returning); returning success
leaves the last-error fields untouched for `cdc_read_data`,
`cdc_write_data`, `cdc_set_line_coding`, `cdc_setdtr_rts`, `cdc_usb_close`,
`cdc_usb_open_dev` and `cdc_usb_open_desc_index` — but NOT for
`cdc_usb_find_all`, whose internal walker probes overwrite the last-error
fields even when the scan returns success (see the counterexample). -/
theorem c10_last_error_discipline (ctx : CdcCtx) (size : Nat) (env : BulkEnv)
    (baudrate bits sbit parity : Nat) (transferResult dtr rts : Int)
    (release : Bool → Nat → Int) (dev : Option UsbDevice) (oenv : OpenEnv)
    (listResult : Int) (devs : List UsbDevice) (vendor product : Nat)
    (description serial : Option String) (alloc : Nat → Bool) (index : Nat) :
    (((cdc_read_data ctx size env).ret < 0 →
        (cdc_read_data ctx size env).ctx.error_code =
          (cdc_read_data ctx size env).ret) ∧
      (0 ≤ (cdc_read_data ctx size env).ret →
        (cdc_read_data ctx size env).ctx = ctx)) ∧
    (((cdc_write_data ctx size env).ret < 0 →
        (cdc_write_data ctx size env).ctx.error_code =
          (cdc_write_data ctx size env).ret) ∧
      (0 ≤ (cdc_write_data ctx size env).ret →
        (cdc_write_data ctx size env).ctx = ctx)) ∧
    (((cdc_set_line_coding ctx baudrate bits sbit parity transferResult).ret < 0 →
        (cdc_set_line_coding ctx baudrate bits sbit parity
            transferResult).ctx.error_code =
          (cdc_set_line_coding ctx baudrate bits sbit parity transferResult).ret) ∧
      (0 ≤ (cdc_set_line_coding ctx baudrate bits sbit parity transferResult).ret →
        (cdc_set_line_coding ctx baudrate bits sbit parity transferResult).ctx =
          ctx)) ∧
    (((cdc_setdtr_rts ctx dtr rts transferResult).ret < 0 →
        (cdc_setdtr_rts ctx dtr rts transferResult).ctx.error_code =
          (cdc_setdtr_rts ctx dtr rts transferResult).ret) ∧
      (0 ≤ (cdc_setdtr_rts ctx dtr rts transferResult).ret →
        (cdc_setdtr_rts ctx dtr rts transferResult).ctx = ctx)) ∧
    (((cdc_usb_close ctx release).ret < 0 →
        (cdc_usb_close ctx release).ctx.error_code =
          (cdc_usb_close ctx release).ret) ∧
      (0 ≤ (cdc_usb_close ctx release).ret →
        (cdc_usb_close ctx release).ctx.error_str = ctx.error_str ∧
        (cdc_usb_close ctx release).ctx.error_code = ctx.error_code)) ∧
    (((cdc_usb_open_dev ctx dev oenv).ret < 0 →
        (cdc_usb_open_dev ctx dev oenv).ctx.error_code =
          (cdc_usb_open_dev ctx dev oenv).ret) ∧
      (0 ≤ (cdc_usb_open_dev ctx dev oenv).ret →
        (cdc_usb_open_dev ctx dev oenv).ctx.error_str = ctx.error_str ∧
        (cdc_usb_open_dev ctx dev oenv).ctx.error_code = ctx.error_code)) ∧
    (((cdc_usb_open_desc_index ctx listResult devs vendor product description
          serial oenv index).ret < 0 →
        (cdc_usb_open_desc_index ctx listResult devs vendor product description
            serial oenv index).ctx.error_code =
          (cdc_usb_open_desc_index ctx listResult devs vendor product description
            serial oenv index).ret) ∧
      (0 ≤ (cdc_usb_open_desc_index ctx listResult devs vendor product
          description serial oenv index).ret →
        (cdc_usb_open_desc_index ctx listResult devs vendor product description
            serial oenv index).ctx.error_str = ctx.error_str ∧
        (cdc_usb_open_desc_index ctx listResult devs vendor product description
            serial oenv index).ctx.error_code = ctx.error_code)) ∧
    ((cdc_usb_find_all ctx listResult devs vendor product alloc).ret < 0 →
      (cdc_usb_find_all ctx listResult devs vendor product alloc).ctx.error_code =
        (cdc_usb_find_all ctx listResult devs vendor product alloc).ret) :=
  ⟨read_last_error ctx size env,
   write_last_error ctx size env,
   set_line_coding_last_error ctx baudrate bits sbit parity transferResult,
   setdtr_rts_last_error ctx dtr rts transferResult,
   close_last_error ctx release,
   open_dev_last_error ctx dev oenv,
   open_desc_index_last_error ctx listResult devs vendor product description
     serial oenv index,
   find_all_last_error ctx listResult devs vendor product alloc⟩

/-- C10 counterexample: `cdc_usb_find_all` with vendor = product = 0 on a bus
holding one non-CDC device returns success (count 0) yet has overwritten the
session's last-error fields: the walker's swallowed `CDC_ERROR_NOT_FOUND`
probe wrote (NotFound, "cdc endpoints") through `cdc_return`. -/
theorem c10_success_mutates_counterexample :
    (cdc_usb_find_all cdc_init_ctx 0 [demoNonCdcDevice] 0 0 (fun _ => true)).ret =
      0 ∧
    (cdc_usb_find_all cdc_init_ctx 0 [demoNonCdcDevice] 0 0
        (fun _ => true)).ctx.error_code = CDC_ERROR_NOT_FOUND ∧
    (cdc_usb_find_all cdc_init_ctx 0 [demoNonCdcDevice] 0 0
        (fun _ => true)).ctx.error_str = "cdc endpoints" ∧
    (cdc_usb_find_all cdc_init_ctx 0 [demoNonCdcDevice] 0 0
        (fun _ => true)).ctx.error_code ≠ cdc_init_ctx.error_code ∧
    (cdc_usb_find_all cdc_init_ctx 0 [demoNonCdcDevice] 0 0
        (fun _ => true)).ctx.error_str ≠ cdc_init_ctx.error_str := by
  exact ⟨by decide, by decide, by decide, by decide, by decide⟩

/-- Witness for C10 (amended) at a concrete input: a failing read writes the
returned code into the session's error_code field. -/
theorem c10_last_error_discipline_witness :
    (cdc_read_data cdc_init_ctx 8 ⟨-1, 0⟩).ctx.error_code =
      (cdc_read_data cdc_init_ctx 8 ⟨-1, 0⟩).ret :=
  (c10_last_error_discipline cdc_init_ctx 8 ⟨-1, 0⟩ 9600 8 0 0 0 0 0
      (fun _ _ => 0) none ⟨0, 0, 0, 0, 0⟩ 0 [] 0 0 none none (fun _ => true)
      0).1.1 (by decide)
